import Mathlib

/-
Verification of the nxapi authentication and token-lifecycle subsystem.

Embedded source files:
  * src/unnamed/part_000 — `CoralApi` (class with `fetch`, `call`,
    `getWebServiceToken`, `setTokenWithSavedToken`, the `onTokenExpired`
    renewal callback and the `_renewToken` single-flight marker).
  * src/src/api/na.ts — `NintendoAccountSessionAuthorisation.getSessionToken`
    and `generateAuthData` (PKCE).

Modelling conventions:
  * Tokens, envelope results and error messages are abstracted to `Nat`
    (they are opaque strings in the source; no claim depends on their
    contents, only on identity).
  * The remote server is an oracle `Env.server : Nat → Resp` giving the
    decoded response envelope as a function of the bearer token presented
    (the URL/method/body are irrelevant to every claim).
  * The injected renewal callback `onTokenExpired` is an oracle
    `Env.renewResult : Nat → RenewOutcome`, indexed by how many
    invocations happened before; `RenewOutcome.success none` models the
    callback resolving with `undefined` (no `setTokenWithSavedToken`),
    `success (some t)` models it resolving with auth data whose
    `credential.accessToken` is `t`, and `failure` a rejected promise.
  * JavaScript is single threaded: code between two `await` points runs
    atomically.  The small-step relation below has exactly one step per
    suspension-point-to-suspension-point segment of `CoralApi.fetch`,
    plus one step for the settlement of the `_renewToken` promise
    (`.then` updating the token and `.finally` clearing the marker run
    back-to-back as microtasks; no waiter can observe the state between
    them, so they are one atomic step here).
-/

namespace Coral

/-- Decoded Coral response envelope (a `CoralResponse<T>` after
`response.json()`): `ok` is `status === CoralStatus.OK` carrying
`result`, `tokenExpired` is `status === CoralStatus.TOKEN_EXPIRED`,
`error` is any other non-OK envelope carrying `errorMessage`. -/
inductive Resp where
  | ok (result : Nat)
  | tokenExpired
  | error (message : Nat)
deriving DecidableEq

/-- Outcome of one settlement of the promise returned by the injected
`onTokenExpired` callback. -/
inductive RenewOutcome where
  | success (newToken : Option Nat)
  | failure
deriving DecidableEq

/-- External world: server behaviour, renewal-callback behaviour, and
whether `onTokenExpired` is configured (non-null). -/
structure Env where
  server : Nat → Resp
  renewResult : Nat → RenewOutcome
  hasCallback : Bool

/-- Result of one `CoralApi.fetch` call as observed by its caller.
`ok tok r` records which bearer token the successful request used. -/
inductive FetchResult where
  | ok (token : Nat) (result : Nat)
  | errExpired
  | errRenewFailed
  | errOther (message : Nat)
deriving DecidableEq

/-- Control state of one logical caller of `CoralApi.fetch`, cut at the
suspension points of the source:
  * `start auto a` — about to execute the top of `fetch` (line 60):
    `if (this._renewToken && _autoRenewToken) await this._renewToken`.
  * `inflight auto a t` — request issued with bearer token `t`
    (line 65), awaiting the response.
  * `waitRenew auto a` — suspended on `await this._renewToken` inside
    the recursive `fetch` call of line 93 (or the top-of-fetch await).
  * `resume auto a ok` — the awaited `_renewToken` promise settled with
    success (`ok = true`) or rejection; about to continue past the await.
  * `done r` — the call returned or threw. -/
inductive CallerSt where
  | start (auto : Bool) (attempt : Nat)
  | inflight (auto : Bool) (attempt : Nat) (token : Nat)
  | waitRenew (auto : Bool) (attempt : Nat)
  | resume (auto : Bool) (attempt : Nat) (success : Bool)
  | done (r : FetchResult)
deriving DecidableEq

/-- Shared state of one `CoralApi` instance plus the control state of
every logical caller. `pending` is `this._renewToken !== null`;
`renewCount` counts invocations of `onTokenExpired` (instrumentation). -/
structure Config where
  token : Nat
  pending : Bool
  renewCount : Nat
  callers : List CallerSt
deriving DecidableEq

/-- One atomic segment of `CoralApi.fetch` for a single caller, given
the shared fields; returns the new `(pending, renewCount, caller state)`.
Transcription of src/unnamed/part_000 lines 55–114:
  * `start`: line 60–62 — with a pending renewal and `_autoRenewToken`
    the caller suspends on the marker, otherwise it proceeds straight to
    issuing the request with the current `this.token` (line 65–70).
  * `inflight`: lines 84–101 — an OK envelope is unwrapped and returned;
    a TOKEN_EXPIRED envelope with `_autoRenewToken && !_attempt &&
    this.onTokenExpired` installs `this._renewToken` if null (line 88,
    becoming the leader and invoking the callback — `renewCount`
    increments here) and recurses with `_attempt + 1`, which suspends on
    the marker (line 60); any other non-OK envelope, and TOKEN_EXPIRED
    past the guard, throws an `ErrorResponse` (lines 96–101).
  * `waitRenew`: suspended, no step.
  * `resume`: past the await — on success continue to issue the request
    with the (possibly renewed) current token; a rejected `_renewToken`
    makes the `await` throw, propagating the renewal failure.
  * `done`: terminal. -/
def callerTrans (env : Env) (pending : Bool) (renewCount : Nat) (token : Nat) :
    CallerSt → Bool × Nat × CallerSt
  | .start auto a =>
      if pending && auto then (pending, renewCount, .waitRenew auto a)
      else (pending, renewCount, .inflight auto a token)
  | .inflight auto a t =>
      match env.server t with
      | .ok r => (pending, renewCount, .done (.ok t r))
      | .tokenExpired =>
          if auto && (a == 0) && env.hasCallback then
            if pending then (pending, renewCount, .waitRenew auto (a + 1))
            else (true, renewCount + 1, .waitRenew auto (a + 1))
          else (pending, renewCount, .done .errExpired)
      | .error m => (pending, renewCount, .done (.errOther m))
  | .waitRenew auto a => (pending, renewCount, .waitRenew auto a)
  | .resume auto a ok =>
      if ok then (pending, renewCount, .inflight auto a token)
      else (pending, renewCount, .done .errRenewFailed)
  | .done r => (pending, renewCount, .done r)

/-- Schedule caller `i` for one atomic segment. Out-of-range `i` is a
no-op. The caller's own steps never change `this.token`. -/
def callerStep (env : Env) (c : Config) (i : Nat) : Config :=
  match c.callers[i]? with
  | none => c
  | some s =>
      let t := callerTrans env c.pending c.renewCount c.token s
      { token := c.token
        pending := t.1
        renewCount := t.2.1
        callers := c.callers.set i t.2.2 }

/-- Settlement of the `_renewToken` promise for one waiter: every caller
suspended on the marker resumes with the settlement outcome. -/
def resolveWaiter : CallerSt → Bool → CallerSt
  | .waitRenew auto a, ok => .resume auto a ok
  | s, _ => s

/-- Settlement of the pending renewal (src/unnamed/part_000 lines
88–92): on fulfilment with auth data, `setTokenWithSavedToken` assigns
`this.token = data.credential.accessToken` (lines 281–283); on
fulfilment with `undefined` the token is untouched; on rejection the
token is untouched. In all cases `.finally` clears `this._renewToken`,
and every waiter is resumed with the settlement outcome. The pending
renewal is invocation number `renewCount - 1`. No-op if no renewal is
pending. -/
def renewStep (env : Env) (c : Config) : Config :=
  if c.pending then
    match env.renewResult (c.renewCount - 1) with
    | .success (some t) =>
        { token := t
          pending := false
          renewCount := c.renewCount
          callers := c.callers.map (fun s => resolveWaiter s true) }
    | .success none =>
        { c with
          pending := false
          callers := c.callers.map (fun s => resolveWaiter s true) }
    | .failure =>
        { c with
          pending := false
          callers := c.callers.map (fun s => resolveWaiter s false) }
  else c

/-- One scheduler step: `some i` runs caller `i`, `none` settles the
pending renewal (if any). -/
def step (env : Env) (c : Config) : Option Nat → Config
  | some i => callerStep env c i
  | none => renewStep env c

/-- Run a whole schedule of interleaved steps. -/
def run (env : Env) (c : Config) (sched : List (Option Nat)) : Config :=
  sched.foldl (step env) c

/-- Configuration after the first `k` steps of the schedule. -/
def runUpTo (env : Env) (c : Config) (sched : List (Option Nat)) (k : Nat) : Config :=
  run env c (sched.take k)

/-- Initial configuration: fresh client with token `t0`, no pending
renewal, and `n` callers all about to enter `fetch` with the default
internal arguments (`_autoRenewToken = true`, `_attempt = 0`). -/
def mkInit (t0 n : Nat) : Config :=
  ⟨t0, false, 0, List.replicate n (.start true 0)⟩

/-- Caller `i` is at the point of processing a token-expired envelope
for its first attempt (`_attempt = 0`). -/
def isExpObs (env : Env) (c : Config) (i : Nat) : Bool :=
  match c.callers[i]? with
  | some (.inflight _ a t) => a == 0 && decide (env.server t = .tokenExpired)
  | _ => false

/-- Step `k` of the schedule settles a pending renewal. -/
def resolvesAt (env : Env) (c : Config) (sched : List (Option Nat)) (k : Nat) : Prop :=
  sched[k]? = some none ∧ (runUpTo env c sched k).pending = true

/-- The caller finished (returned or threw). -/
def CallerSt.isDone : CallerSt → Bool
  | .done _ => true
  | _ => false

/-
Sequential (single-caller) projection of `CoralApi.fetch` and
`CoralApi.getWebServiceToken`.  With one logical caller the
`_renewToken` marker is always null on entry and the awaits resolve
immediately, so the control flow of lines 55–114 and 210–243 collapses
to the direct recursions below.  `SeqSt` carries the client token plus
two instrumentation counters: `attempts` counts requests issued against
the Coral server, `renewCount` counts invocations of `onTokenExpired`.
-/

/-- Client state for the sequential model, with instrumentation. -/
structure SeqSt where
  token : Nat
  attempts : Nat
  renewCount : Nat
deriving DecidableEq

/-- One invocation of `onTokenExpired` followed by the settlement of
its promise (lines 88–92 / 233–237): on fulfilment with auth data the
token is replaced via `setTokenWithSavedToken` (line 281–283), on
fulfilment with `undefined` it is kept; the returned flag is false iff
the promise rejected. -/
def doRenew (env : Env) (s : SeqSt) : SeqSt × Bool :=
  match env.renewResult s.renewCount with
  | .success (some t) => (⟨t, s.attempts, s.renewCount + 1⟩, true)
  | .success none => (⟨s.token, s.attempts, s.renewCount + 1⟩, true)
  | .failure => (⟨s.token, s.attempts, s.renewCount + 1⟩, false)

/-- `CoralApi.fetch` (src/unnamed/part_000 lines 55–114), sequential:
issue the request with the current token; on a TOKEN_EXPIRED envelope
with `_autoRenewToken && !_attempt && this.onTokenExpired` (line 86)
invoke the renewal callback and recurse with `_attempt + 1` (line 93) —
if the renewal promise rejected, the `await this._renewToken` in the
recursive call throws (`errRenewFailed`); otherwise unwrap an OK
envelope or throw an `ErrorResponse` (lines 96–101). -/
def fetchSeq (env : Env) (s : SeqSt) (autoRenew : Bool) (attempt : Nat) :
    SeqSt × FetchResult :=
  let s1 : SeqSt := ⟨s.token, s.attempts + 1, s.renewCount⟩
  match env.server s.token with
  | .ok r => (s1, .ok s.token r)
  | .tokenExpired =>
      if hg : autoRenew = true ∧ attempt = 0 ∧ env.hasCallback = true then
        match doRenew env s1 with
        | (s2, true) => fetchSeq env s2 autoRenew (attempt + 1)
        | (s2, false) => (s2, .errRenewFailed)
      else (s1, .errExpired)
  | .error m => (s1, .errOther m)
termination_by 1 - attempt
decreasing_by obtain ⟨-, h2, -⟩ := hg; omega

/-- `CoralApi.getWebServiceToken` (src/unnamed/part_000 lines 210–243),
sequential: the inner request goes through `this.call(url, req, false)`,
i.e. `fetch` with `_autoRenewToken = false` (no retry inside `fetch`);
on an `ErrorResponse` with `err.data.status === CoralStatus.TOKEN_EXPIRED
&& !_attempt && this.onTokenExpired` (line 230) it invokes the renewal
callback and recurses with `_attempt + 1` (line 238); any other error is
rethrown. The device-proof computation `f(...)` (line 213) only builds
the request body and is irrelevant to the retry bound, so it is elided. -/
def getWebServiceTokenSeq (env : Env) (s : SeqSt) (attempt : Nat) :
    SeqSt × FetchResult :=
  match fetchSeq env s false 0 with
  | (s1, .errExpired) =>
      if hg : attempt = 0 ∧ env.hasCallback = true then
        match doRenew env s1 with
        | (s2, true) => getWebServiceTokenSeq env s2 (attempt + 1)
        | (s2, false) => (s2, .errRenewFailed)
      else (s1, .errExpired)
  | (s1, r) => (s1, r)
termination_by 1 - attempt
decreasing_by obtain ⟨h1, -⟩ := hg; omega

end Coral

namespace NA

/-
Model of src/src/api/na.ts: `NintendoAccountSessionAuthorisation.
getSessionToken` (lines 29–64) and `generateAuthData` (lines 98–127).
-/

/-- A JavaScript string-or-null-or-undefined argument (the `state`
parameter of `getSessionToken` has TypeScript type
`string | null | undefined`). -/
inductive StrArg where
  | undef
  | null
  | str (s : String)
deriving DecidableEq

/-- Minimal model of `URLSearchParams`: an ordered list of key/value
pairs; `get` returns the first value for the key or null, `hasParam`
models `has`. -/
structure SearchParams where
  pairs : List (String × String)
deriving DecidableEq

/-- URLSearchParams.get: first value for the key, if any. -/
def SearchParams.get (q : SearchParams) (k : String) : Option String :=
  (q.pairs.find? (fun p => p.1 == k)).map (fun p => p.2)

/-- URLSearchParams.has. -/
def SearchParams.hasParam (q : SearchParams) (k : String) : Bool :=
  q.pairs.any (fun p => p.1 == k)

/-- First argument of `getSessionToken`:
`code: string | URLSearchParams | null`. -/
inductive SessionTokenCode where
  | str (code : String)
  | params (q : SearchParams)
  | null
deriving DecidableEq

/-- Errors thrown by `getSessionToken`: `alreadyCompleted` is the
`Error('NintendoAccountSessionAuthorisation already completed')` of
line 33, `invalidState` the `TypeError('Invalid state')` of lines 42/54,
`sessionTokenError` the `NintendoAccountSessionAuthorisationError`
built by `fromSearchParams` (lines 90–95), `invalidCode` the
`TypeError('Invalid code')` of line 58. -/
inductive AuthError where
  | alreadyCompleted
  | invalidState
  | sessionTokenError (code : String) (message : String)
  | invalidCode
deriving DecidableEq

/-- The `result` field recorded on completion
(`NintendoAccountSessionAuthorisationResult`, lines 80–83). -/
structure AuthResult where
  state : StrArg
  code : String
deriving DecidableEq

/-- The arguments of the `getNintendoAccountSessionToken(code,
this.verifier, this.client_id)` network call made on success (line 63).
Producing this record stands for attempting that network call; every
`Except.error` return happens before it. -/
structure SessionTokenRequest where
  code : String
  verifier : String
  client_id : String
deriving DecidableEq

/-- State of a `NintendoAccountSessionAuthorisation` instance
(lines 11–27). `result` is null until an exchange succeeds. -/
structure Authorisation where
  client_id : String
  scope : String
  authorise_url : String
  state : String
  verifier : String
  redirect_uri : String
  result : Option AuthResult
deriving DecidableEq

/-- JavaScript truth of `typeof state !== 'undefined' && state !==
this.state` (line 53): null or a different string fails the check. -/
def stateCheckFails : StrArg → String → Bool
  | .undef, _ => false
  | .null, _ => true
  | .str s, t => s != t

/-- Tail of `getSessionToken` after the `URLSearchParams` block
(lines 53–63): validate the (possibly rewritten) `state` and `code`
variables, record `result` and return the network call's arguments.
`result_state` is the outer `result_state` captured at line 36. -/
def finishGetSessionToken (flow : Authorisation) (result_state : StrArg)
    (code : Option String) (state : StrArg) :
    Except AuthError (Authorisation × SessionTokenRequest) :=
  if stateCheckFails state flow.state then .error .invalidState
  else match code with
    | some c =>
        if c = "" then .error .invalidCode
        else .ok ({ flow with result := some ⟨result_state, c⟩ },
                  ⟨c, flow.verifier, flow.client_id⟩)
    | none => .error .invalidCode

/-- `NintendoAccountSessionAuthorisation.getSessionToken`
(src/src/api/na.ts lines 29–64).  An already-completed flow throws
first (line 32–34).  For a `URLSearchParams` argument: the query's
`state` must equal the stored state (lines 39–43, checked before the
provider `error` parameter, lines 45–47), then `code` is re-bound to
`session_token_code` and `state` to undefined (lines 49–50).  Then the
shared tail checks `state` (only when defined) and `code`, records
`result` and performs the exchange network call. -/
def getSessionToken (flow : Authorisation) (code0 : SessionTokenCode)
    (state0 : StrArg) :
    Except AuthError (Authorisation × SessionTokenRequest) :=
  if flow.result.isSome then .error .alreadyCompleted
  else
    match code0 with
    | .params q =>
        if q.get "state" = some flow.state then
          if q.hasParam "error" then
            .error (.sessionTokenError ((q.get "error").getD "unknown_error")
              ((q.get "error_description").getD
                ((q.get "error").getD "unknown_error")))
          else finishGetSessionToken flow state0 (q.get "session_token_code") .undef
        else .error .invalidState
    | .str s => finishGetSessionToken flow state0 (some s) state0
    | .null => finishGetSessionToken flow state0 none state0

/-
PKCE generation, `generateAuthData` (src/src/api/na.ts lines 98–127).
`node:crypto` is external to the repository, so its two primitives are
oracles; base64url (`Buffer.toString('base64url')`: standard base64
with the URL-safe alphabet and no padding) is implemented concretely.
Bytes are `Nat`s (only values < 256 ever arise from the oracles'
intended behaviour; the encoder masks like the bit operations would).
-/

/-- URL-safe base64 alphabet (A–Z, a–z, 0–9, minus, underscore). -/
def b64Char (n : Nat) : Char :=
  if n < 26 then Char.ofNat (65 + n)
  else if n < 52 then Char.ofNat (97 + (n - 26))
  else if n < 62 then Char.ofNat (48 + (n - 52))
  else if n = 62 then Char.ofNat 45
  else Char.ofNat 95

/-- Base64url encoding of a byte list, without padding. -/
def base64urlChars : List Nat → List Char
  | [] => []
  | [a] => [b64Char (a % 256 / 4), b64Char (a % 4 * 16)]
  | [a, b] =>
      [b64Char (a % 256 / 4), b64Char (a % 4 * 16 + b % 256 / 16),
       b64Char (b % 16 * 4)]
  | a :: b :: c :: rest =>
      b64Char (a % 256 / 4) :: b64Char (a % 4 * 16 + b % 256 / 16) ::
      b64Char (b % 16 * 4 + c % 256 / 64) :: b64Char (c % 64) ::
      base64urlChars rest

/-- Buffer.toString with the base64url encoding. -/
def base64url (bs : List Nat) : String :=
  String.mk (base64urlChars bs)

/-- UTF-8 bytes of a string (`crypto.createHash('sha256').update(v)`
hashes the UTF-8 encoding of the string `v`). -/
def utf8Bytes (s : String) : List Nat :=
  s.toUTF8.toList.map (fun b => b.toNat)

/-- The `node:crypto` primitives used by `generateAuthData`, as oracles:
`randomBytes n` is one draw of `n` bytes from the cryptographically
secure source, `sha256` the SHA-256 digest of a byte sequence. -/
structure CryptoPrim where
  randomBytes : Nat → List Nat
  sha256 : List Nat → List Nat

/-- Query parameters of the authorize URL (lines 107–116). -/
structure AuthorizeParams where
  state : String
  redirect_uri : String
  client_id : String
  scope : String
  response_type : String
  session_token_code_challenge : String
  session_token_code_challenge_method : String
  theme : String
deriving DecidableEq

/-- Query-string serialisation of the parameters, in source order.
URLSearchParams percent-escaping is elided: no claim depends on it. -/
def authorizeQuery (p : AuthorizeParams) : String :=
  "state=" ++ p.state ++ "&redirect_uri=" ++ p.redirect_uri ++
  "&client_id=" ++ p.client_id ++ "&scope=" ++ p.scope ++
  "&response_type=" ++ p.response_type ++
  "&session_token_code_challenge=" ++ p.session_token_code_challenge ++
  "&session_token_code_challenge_method=" ++
  p.session_token_code_challenge_method ++ "&theme=" ++ p.theme

/-- Return value of `generateAuthData` (lines 121–126). -/
structure AuthData where
  url : String
  state : String
  verifier : String
  challenge : String
deriving DecidableEq

/-- `generateAuthData` (src/src/api/na.ts lines 98–127):
`state = randomBytes(36).toString('base64url')`,
`verifier = randomBytes(32).toString('base64url')`,
`challenge = base64url(sha256(verifier))`, and the authorize URL is
built from the query parameters including
`session_token_code_challenge_method: 'S256'`.  The params record is
returned alongside so the claims can speak about it. -/
def generateAuthData (crypto : CryptoPrim) (client_id scope redirect_uri : String) :
    AuthData × AuthorizeParams :=
  let state := base64url (crypto.randomBytes 36)
  let verifier := base64url (crypto.randomBytes 32)
  let challenge := base64url (crypto.sha256 (utf8Bytes verifier))
  let params : AuthorizeParams :=
    ⟨state, redirect_uri, client_id, scope, "session_token_code",
     challenge, "S256", "login_form"⟩
  (⟨"https://accounts.nintendo.com/connect/1.0.0/authorize?" ++
      authorizeQuery params,
    state, verifier, challenge⟩, params)

/-- The provided callback input carries a state that does not equal the
flow's stored state: for a parsed redirect query string, its `state`
parameter differs from (or is missing against) the stored one; for a
raw `(code, state)` pair, a provided (non-undefined) `state` argument
differing from the stored one. -/
def callbackStateMismatch (code0 : SessionTokenCode) (state0 : StrArg)
    (stored : String) : Bool :=
  match code0 with
  | .params q => decide (q.get "state" ≠ some stored)
  | _ => decide (state0 ≠ .undef) && decide (state0 ≠ .str stored)

end NA

/-- C5: for every PKCE challenge produced by `generateAuthData`, the
challenge is `base64url(sha256(verifier))` (hashing the verifier's
UTF-8 bytes), the challenge method sent in the authorize parameters is
"S256", the state is the URL-safe (base64url) encoding of one 36-byte
draw from the secure random source and the verifier of one 32-byte
draw (the hypotheses are the `crypto.randomBytes` length contract).
`generateAuthData` is a pure function of the crypto primitives — it
returns fresh values and has no other effect. -/
theorem NA.pkce_challenge_correct (crypto : NA.CryptoPrim)
    (cid scope ruri : String)
    (h36 : (crypto.randomBytes 36).length = 36)
    (h32 : (crypto.randomBytes 32).length = 32) :
    (NA.generateAuthData crypto cid scope ruri).1.challenge
        = NA.base64url (crypto.sha256
            (NA.utf8Bytes (NA.generateAuthData crypto cid scope ruri).1.verifier))
    ∧ (NA.generateAuthData crypto cid scope ruri).2.session_token_code_challenge
        = (NA.generateAuthData crypto cid scope ruri).1.challenge
    ∧ (NA.generateAuthData crypto cid scope ruri).2.session_token_code_challenge_method
        = "S256"
    ∧ (NA.generateAuthData crypto cid scope ruri).1.state
        = NA.base64url (crypto.randomBytes 36)
    ∧ (crypto.randomBytes 36).length = 36
    ∧ (NA.generateAuthData crypto cid scope ruri).1.verifier
        = NA.base64url (crypto.randomBytes 32)
    ∧ (crypto.randomBytes 32).length = 32
    ∧ (NA.generateAuthData crypto cid scope ruri).2.state
        = (NA.generateAuthData crypto cid scope ruri).1.state :=
  ⟨rfl, rfl, rfl, rfl, h36, rfl, h32, rfl⟩

/-- Concrete crypto primitives for the C5 witness. -/
def NA.cryptoW : NA.CryptoPrim :=
  ⟨fun n => List.replicate n 7, fun _ => List.replicate 32 3⟩

/-- C5 witness: the length hypotheses hold for a concrete random
source, and the theorem applies to it. -/
theorem NA.pkce_challenge_correct_witness :
    ((NA.cryptoW.randomBytes 36).length = 36
      ∧ (NA.cryptoW.randomBytes 32).length = 32)
    ∧ ((NA.generateAuthData NA.cryptoW "abc" "openid user" "npfabc://auth").1.challenge
        = NA.base64url (NA.cryptoW.sha256
            (NA.utf8Bytes (NA.generateAuthData NA.cryptoW "abc" "openid user" "npfabc://auth").1.verifier))
    ∧ (NA.generateAuthData NA.cryptoW "abc" "openid user" "npfabc://auth").2.session_token_code_challenge
        = (NA.generateAuthData NA.cryptoW "abc" "openid user" "npfabc://auth").1.challenge
    ∧ (NA.generateAuthData NA.cryptoW "abc" "openid user" "npfabc://auth").2.session_token_code_challenge_method
        = "S256"
    ∧ (NA.generateAuthData NA.cryptoW "abc" "openid user" "npfabc://auth").1.state
        = NA.base64url (NA.cryptoW.randomBytes 36)
    ∧ (NA.cryptoW.randomBytes 36).length = 36
    ∧ (NA.generateAuthData NA.cryptoW "abc" "openid user" "npfabc://auth").1.verifier
        = NA.base64url (NA.cryptoW.randomBytes 32)
    ∧ (NA.cryptoW.randomBytes 32).length = 32
    ∧ (NA.generateAuthData NA.cryptoW "abc" "openid user" "npfabc://auth").2.state
        = (NA.generateAuthData NA.cryptoW "abc" "openid user" "npfabc://auth").1.state) :=
  ⟨⟨by simp [NA.cryptoW], by simp [NA.cryptoW]⟩,
   NA.pkce_challenge_correct NA.cryptoW "abc" "openid user" "npfabc://auth"
     (by simp [NA.cryptoW]) (by simp [NA.cryptoW])⟩

/-- A flow instance whose exchange has already completed, for the C4
counterexample. -/
def NA.completedFlowC : NA.Authorisation :=
  ⟨"cid", "openid", "url", "s0", "v0", "npfcid://auth",
   some ⟨NA.StrArg.undef, "c0"⟩⟩

/-- C4 counterexample: on an already-completed flow instance a callback
whose state mismatches the stored state fails with the
already-completed error, not with the invalid-state error — so the
claim, quantified over every `AuthorizationFlow` instance, is false:
the completed-check of line 32 precedes the state check. -/
theorem NA.state_validation_counterexample :
    NA.callbackStateMismatch
        (NA.SessionTokenCode.params ⟨[("state", "WRONG")]⟩)
        NA.StrArg.undef NA.completedFlowC.state = true
    ∧ NA.getSessionToken NA.completedFlowC
        (NA.SessionTokenCode.params ⟨[("state", "WRONG")]⟩) NA.StrArg.undef
      = Except.error NA.AuthError.alreadyCompleted
    ∧ NA.getSessionToken NA.completedFlowC
        (NA.SessionTokenCode.params ⟨[("state", "WRONG")]⟩) NA.StrArg.undef
      ≠ Except.error NA.AuthError.invalidState := by
  refine ⟨by decide, rfl, ?_⟩
  rw [show NA.getSessionToken NA.completedFlowC
        (NA.SessionTokenCode.params ⟨[("state", "WRONG")]⟩) NA.StrArg.undef
      = Except.error NA.AuthError.alreadyCompleted from rfl]
  simp

/-- C4 (amended): for every `AuthorizationFlow` instance whose exchange
has not already completed, and every callback input (raw `(code,
state)` pair or parsed redirect query string) whose state does not
equal the flow's stored state, `getSessionToken` fails with the
invalid-state error — in particular no `SessionTokenRequest` is
produced, i.e. the session-token network call is never attempted. -/
theorem NA.state_validation_fails_closed (flow : NA.Authorisation)
    (code0 : NA.SessionTokenCode) (state0 : NA.StrArg)
    (hfresh : flow.result = none)
    (hmis : NA.callbackStateMismatch code0 state0 flow.state = true) :
    NA.getSessionToken flow code0 state0
      = Except.error NA.AuthError.invalidState := by
  unfold NA.getSessionToken
  rw [hfresh]
  simp only [Option.isSome_none, Bool.false_eq_true, if_false]
  cases code0 with
  | params q =>
      simp only [NA.callbackStateMismatch] at hmis
      have hne := of_decide_eq_true hmis
      simp [hne]
  | str s =>
      simp only [NA.callbackStateMismatch, Bool.and_eq_true] at hmis
      obtain ⟨h1, h2⟩ := hmis
      have h1 := of_decide_eq_true h1
      have h2 := of_decide_eq_true h2
      have hch : NA.stateCheckFails state0 flow.state = true := by
        cases state0 with
        | undef => exact absurd rfl h1
        | null => rfl
        | str s2 =>
            have hne : s2 ≠ flow.state := fun h => h2 (by rw [h])
            simp [NA.stateCheckFails, hne]
      unfold NA.finishGetSessionToken
      simp [hch]
  | null =>
      simp only [NA.callbackStateMismatch, Bool.and_eq_true] at hmis
      obtain ⟨h1, h2⟩ := hmis
      have h1 := of_decide_eq_true h1
      have h2 := of_decide_eq_true h2
      have hch : NA.stateCheckFails state0 flow.state = true := by
        cases state0 with
        | undef => exact absurd rfl h1
        | null => rfl
        | str s2 =>
            have hne : s2 ≠ flow.state := fun h => h2 (by rw [h])
            simp [NA.stateCheckFails, hne]
      unfold NA.finishGetSessionToken
      simp [hch]

/-- A pending (not yet completed) flow instance for the C4 witness. -/
def NA.pendingFlowW : NA.Authorisation :=
  ⟨"cid", "openid", "url", "s0", "v0", "npfcid://auth", none⟩

/-- C4 witness: a pending flow and a raw pair with a mismatched state
satisfy the hypotheses, and the amended theorem applies. -/
theorem NA.state_validation_fails_closed_witness :
    (NA.pendingFlowW.result = none
      ∧ NA.callbackStateMismatch (NA.SessionTokenCode.str "thecode")
          (NA.StrArg.str "WRONG") NA.pendingFlowW.state = true)
    ∧ NA.getSessionToken NA.pendingFlowW (NA.SessionTokenCode.str "thecode")
        (NA.StrArg.str "WRONG")
      = Except.error NA.AuthError.invalidState :=
  ⟨⟨rfl, by decide⟩,
   NA.state_validation_fails_closed NA.pendingFlowW
     (NA.SessionTokenCode.str "thecode") (NA.StrArg.str "WRONG")
     rfl (by decide)⟩

/-- C3: renewal-failure atomicity. If a renewal is pending and the
renewal callback's promise rejects, then settling it clears the
pending-renewal marker, leaves the client's current token field
unchanged (the previous token stays in place for subsequent calls, and
`renewCount` records no further invocation), and every caller suspended
on the renewal resumes with the failure and then propagates it as its
own error (`errRenewFailed`) — the failure reaches every waiter. -/
theorem Coral.renewal_failure_atomic (env : Coral.Env) (c : Coral.Config)
    (hp : c.pending = true)
    (hf : env.renewResult (c.renewCount - 1) = Coral.RenewOutcome.failure) :
    (Coral.renewStep env c).token = c.token
    ∧ (Coral.renewStep env c).pending = false
    ∧ (Coral.renewStep env c).renewCount = c.renewCount
    ∧ ∀ i auto a,
        c.callers[i]? = some (Coral.CallerSt.waitRenew auto a) →
        (Coral.renewStep env c).callers[i]?
            = some (Coral.CallerSt.resume auto a false)
        ∧ (Coral.callerStep env (Coral.renewStep env c) i).callers[i]?
            = some (Coral.CallerSt.done Coral.FetchResult.errRenewFailed) := by
  have hstep : Coral.renewStep env c
      = { c with
          pending := false
          callers := c.callers.map (fun s => Coral.resolveWaiter s false) } := by
    unfold Coral.renewStep
    rw [hp, hf]
    simp
  refine ⟨by rw [hstep], by rw [hstep], by rw [hstep], ?_⟩
  intro i auto a hw
  have hres : (Coral.renewStep env c).callers[i]?
      = some (Coral.CallerSt.resume auto a false) := by
    rw [hstep]
    simp only [List.getElem?_map, hw, Option.map_some']
    rfl
  refine ⟨hres, ?_⟩
  unfold Coral.callerStep
  rw [hres]
  have hlen : i < (Coral.renewStep env c).callers.length := by
    have := List.getElem?_eq_some_iff.mp hres
    exact this.1
  simp only [Coral.callerTrans, Bool.false_eq_true, if_false]
  exact List.getElem?_set_self hlen

/-- Environment whose renewal callback fails, for the C3 witness. -/
def Coral.envFailW : Coral.Env :=
  ⟨fun _ => Coral.Resp.tokenExpired, fun _ => Coral.RenewOutcome.failure, true⟩

/-- Configuration with a pending renewal and two waiting callers, for
the C3 witness. -/
def Coral.cFailW : Coral.Config :=
  ⟨10, true, 1,
   [Coral.CallerSt.waitRenew true 1, Coral.CallerSt.waitRenew true 1]⟩

/-- C3 witness: the hypotheses hold at a concrete pending-renewal
configuration with a failing callback, and the theorem applies. -/
theorem Coral.renewal_failure_atomic_witness :
    (Coral.cFailW.pending = true
      ∧ Coral.envFailW.renewResult (Coral.cFailW.renewCount - 1)
          = Coral.RenewOutcome.failure)
    ∧ ((Coral.renewStep Coral.envFailW Coral.cFailW).token = Coral.cFailW.token
    ∧ (Coral.renewStep Coral.envFailW Coral.cFailW).pending = false
    ∧ (Coral.renewStep Coral.envFailW Coral.cFailW).renewCount
        = Coral.cFailW.renewCount
    ∧ ∀ i auto a,
        Coral.cFailW.callers[i]? = some (Coral.CallerSt.waitRenew auto a) →
        (Coral.renewStep Coral.envFailW Coral.cFailW).callers[i]?
            = some (Coral.CallerSt.resume auto a false)
        ∧ (Coral.callerStep Coral.envFailW
              (Coral.renewStep Coral.envFailW Coral.cFailW) i).callers[i]?
            = some (Coral.CallerSt.done Coral.FetchResult.errRenewFailed)) :=
  ⟨⟨rfl, rfl⟩, Coral.renewal_failure_atomic Coral.envFailW Coral.cFailW rfl rfl⟩

/-- A request whose envelope is token-expired, made while the retry
guard of line 86 (resp. line 230) does not hold, raises the error
directly: one request, no renewal. -/
theorem Coral.fetchSeq_expired_noRetry (env : Coral.Env) (s : Coral.SeqSt)
    (auto : Bool) (a : Nat)
    (hserv : env.server s.token = Coral.Resp.tokenExpired)
    (h : ¬(auto = true ∧ a = 0 ∧ env.hasCallback = true)) :
    Coral.fetchSeq env s auto a
      = (⟨s.token, s.attempts + 1, s.renewCount⟩,
         Coral.FetchResult.errExpired) := by
  rw [Coral.fetchSeq]
  simp [hserv, h]

/-- C2: at-most-once retry per expiry signal. Against a server that
answers token-expired to every token, with a configured renewal
callback that does not reject: a `fetch` call entered with the default
attempt counter 0 issues exactly two requests (the original and one
retry, with the attempt counter incremented), invokes the renewal
callback exactly once, and raises the expiry error after the retried
request also signals token-expired — no third attempt; a `fetch` call
whose attempt counter is already nonzero issues exactly one request,
invokes no renewal, and raises the error. The same bound holds on the
device-proof path `getWebServiceToken`: entered at attempt counter 0 it
issues exactly two requests and one renewal and the second
token-expired failure is terminal; at nonzero attempt counter the first
failure is terminal. -/
theorem Coral.retry_at_most_once (env : Coral.Env) (s : Coral.SeqSt)
    (hserv : ∀ t, env.server t = Coral.Resp.tokenExpired)
    (hcb : env.hasCallback = true)
    (hrenew : ∀ k, env.renewResult k ≠ Coral.RenewOutcome.failure) :
    ((Coral.fetchSeq env s true 0).2 = Coral.FetchResult.errExpired
      ∧ (Coral.fetchSeq env s true 0).1.attempts = s.attempts + 2
      ∧ (Coral.fetchSeq env s true 0).1.renewCount = s.renewCount + 1)
    ∧ (∀ a, a ≠ 0 →
        (Coral.fetchSeq env s true a).2 = Coral.FetchResult.errExpired
        ∧ (Coral.fetchSeq env s true a).1.attempts = s.attempts + 1
        ∧ (Coral.fetchSeq env s true a).1.renewCount = s.renewCount)
    ∧ ((Coral.getWebServiceTokenSeq env s 0).2 = Coral.FetchResult.errExpired
      ∧ (Coral.getWebServiceTokenSeq env s 0).1.attempts = s.attempts + 2
      ∧ (Coral.getWebServiceTokenSeq env s 0).1.renewCount = s.renewCount + 1)
    ∧ (∀ a, a ≠ 0 →
        (Coral.getWebServiceTokenSeq env s a).2 = Coral.FetchResult.errExpired
        ∧ (Coral.getWebServiceTokenSeq env s a).1.attempts = s.attempts + 1
        ∧ (Coral.getWebServiceTokenSeq env s a).1.renewCount = s.renewCount) := by
  have hfetch0 : ∀ s' : Coral.SeqSt,
      (Coral.fetchSeq env s' true 0).2 = Coral.FetchResult.errExpired
      ∧ (Coral.fetchSeq env s' true 0).1.attempts = s'.attempts + 2
      ∧ (Coral.fetchSeq env s' true 0).1.renewCount = s'.renewCount + 1 := by
    intro s'
    rw [Coral.fetchSeq]
    simp only [hserv, hcb]
    rw [dif_pos (by refine ⟨?_, ?_, ?_⟩ <;> trivial)]
    cases hr : env.renewResult s'.renewCount with
    | failure => exact absurd hr (hrenew _)
    | success tk =>
        cases tk with
        | some t =>
            simp only [Coral.doRenew, hr]
            rw [Coral.fetchSeq_expired_noRetry env _ true 1 (hserv _)
              (by intro h; exact absurd h.2.1 one_ne_zero)]
            exact ⟨by trivial, by trivial, by trivial⟩
        | none =>
            simp only [Coral.doRenew, hr]
            rw [Coral.fetchSeq_expired_noRetry env _ true 1 (hserv _)
              (by intro h; exact absurd h.2.1 one_ne_zero)]
            exact ⟨by trivial, by trivial, by trivial⟩
  have hfetchA : ∀ (s' : Coral.SeqSt) (a : Nat), a ≠ 0 →
      Coral.fetchSeq env s' true a
        = (⟨s'.token, s'.attempts + 1, s'.renewCount⟩,
           Coral.FetchResult.errExpired) := by
    intro s' a ha
    exact Coral.fetchSeq_expired_noRetry env s' true a (hserv _)
      (by intro h; exact absurd h.2.1 ha)
  have hinner : ∀ s' : Coral.SeqSt,
      Coral.fetchSeq env s' false 0
        = (⟨s'.token, s'.attempts + 1, s'.renewCount⟩,
           Coral.FetchResult.errExpired) := by
    intro s'
    exact Coral.fetchSeq_expired_noRetry env s' false 0 (hserv _)
      (by intro h; exact absurd h.1 (by simp))
  have hwstA : ∀ (s' : Coral.SeqSt) (a : Nat), a ≠ 0 →
      Coral.getWebServiceTokenSeq env s' a
        = (⟨s'.token, s'.attempts + 1, s'.renewCount⟩,
           Coral.FetchResult.errExpired) := by
    intro s' a ha
    rw [Coral.getWebServiceTokenSeq, hinner s']
    simp only []
    rw [dif_neg (by intro h; exact absurd h.1 ha)]
  refine ⟨hfetch0 s, fun a ha => by rw [hfetchA s a ha]; exact ⟨by trivial, by trivial, by trivial⟩,
    ?_, fun a ha => by rw [hwstA s a ha]; exact ⟨by trivial, by trivial, by trivial⟩⟩
  rw [Coral.getWebServiceTokenSeq, hinner s]
  simp only []
  rw [dif_pos (by refine ⟨?_, ?_⟩ <;> trivial)]
  cases hr : env.renewResult s.renewCount with
  | failure => exact absurd hr (hrenew _)
  | success tk =>
      cases tk with
      | some t =>
          simp only [Coral.doRenew, hr]
          rw [hwstA _ 1 one_ne_zero]
          exact ⟨by trivial, by trivial, by trivial⟩
      | none =>
          simp only [Coral.doRenew, hr]
          rw [hwstA _ 1 one_ne_zero]
          exact ⟨by trivial, by trivial, by trivial⟩

/-- Environment whose server always reports token-expired and whose
renewal callback always succeeds, for the C2 witness. -/
def Coral.envRetryW : Coral.Env :=
  ⟨fun _ => Coral.Resp.tokenExpired,
   fun _ => Coral.RenewOutcome.success (some 5), true⟩

/-- Initial sequential client state for the C2 witness. -/
def Coral.sRetryW : Coral.SeqSt := ⟨0, 0, 0⟩

/-- C2 witness: the hypotheses hold for a concrete always-expired
environment and the theorem applies to it. -/
theorem Coral.retry_at_most_once_witness :
    ((∀ t, Coral.envRetryW.server t = Coral.Resp.tokenExpired)
      ∧ Coral.envRetryW.hasCallback = true
      ∧ (∀ k, Coral.envRetryW.renewResult k ≠ Coral.RenewOutcome.failure))
    ∧ (((Coral.fetchSeq Coral.envRetryW Coral.sRetryW true 0).2
          = Coral.FetchResult.errExpired
      ∧ (Coral.fetchSeq Coral.envRetryW Coral.sRetryW true 0).1.attempts
          = Coral.sRetryW.attempts + 2
      ∧ (Coral.fetchSeq Coral.envRetryW Coral.sRetryW true 0).1.renewCount
          = Coral.sRetryW.renewCount + 1)
    ∧ (∀ a, a ≠ 0 →
        (Coral.fetchSeq Coral.envRetryW Coral.sRetryW true a).2
            = Coral.FetchResult.errExpired
        ∧ (Coral.fetchSeq Coral.envRetryW Coral.sRetryW true a).1.attempts
            = Coral.sRetryW.attempts + 1
        ∧ (Coral.fetchSeq Coral.envRetryW Coral.sRetryW true a).1.renewCount
            = Coral.sRetryW.renewCount)
    ∧ ((Coral.getWebServiceTokenSeq Coral.envRetryW Coral.sRetryW 0).2
          = Coral.FetchResult.errExpired
      ∧ (Coral.getWebServiceTokenSeq Coral.envRetryW Coral.sRetryW 0).1.attempts
          = Coral.sRetryW.attempts + 2
      ∧ (Coral.getWebServiceTokenSeq Coral.envRetryW Coral.sRetryW 0).1.renewCount
          = Coral.sRetryW.renewCount + 1)
    ∧ (∀ a, a ≠ 0 →
        (Coral.getWebServiceTokenSeq Coral.envRetryW Coral.sRetryW a).2
            = Coral.FetchResult.errExpired
        ∧ (Coral.getWebServiceTokenSeq Coral.envRetryW Coral.sRetryW a).1.attempts
            = Coral.sRetryW.attempts + 1
        ∧ (Coral.getWebServiceTokenSeq Coral.envRetryW Coral.sRetryW a).1.renewCount
            = Coral.sRetryW.renewCount)) :=
  ⟨⟨fun _ => rfl, rfl, fun _ h => Coral.RenewOutcome.noConfusion h⟩,
   Coral.retry_at_most_once Coral.envRetryW Coral.sRetryW
     (fun _ => rfl) rfl (fun _ h => Coral.RenewOutcome.noConfusion h)⟩

/-- Settling the renewal is a no-op when none is pending. -/
theorem Coral.renewStep_not_pending (env : Coral.Env) (c : Coral.Config)
    (h : c.pending = false) : Coral.renewStep env c = c := by
  unfold Coral.renewStep
  rw [h]
  simp

/-- Unfolding one scheduled step of a prefix run. -/
theorem Coral.runUpTo_succ (env : Coral.Env) (c0 : Coral.Config)
    (sched : List (Option Nat)) (k : Nat) (p : Option Nat)
    (h : sched[k]? = some p) :
    Coral.runUpTo env c0 sched (k + 1)
      = Coral.step env (Coral.runUpTo env c0 sched k) p := by
  unfold Coral.runUpTo Coral.run
  rw [List.take_succ, h]
  simp

/-- A prefix run past the end of the schedule is stationary. -/
theorem Coral.runUpTo_succ_none (env : Coral.Env) (c0 : Coral.Config)
    (sched : List (Option Nat)) (k : Nat) (h : sched[k]? = none) :
    Coral.runUpTo env c0 sched (k + 1) = Coral.runUpTo env c0 sched k := by
  unfold Coral.runUpTo Coral.run
  rw [List.take_succ, h]
  simp

/-- Caller states reachable before the first settlement of a renewal,
in the C1 scenario: first attempt not yet made or made with the
original token, or suspended on the pending renewal. -/
def Coral.goodSt1 (t0 : Nat) (pending : Bool) (s : Coral.CallerSt) : Prop :=
  s = Coral.CallerSt.start true 0
  ∨ s = Coral.CallerSt.inflight true 0 t0
  ∨ (pending = true ∧ (s = Coral.CallerSt.waitRenew true 0
      ∨ s = Coral.CallerSt.waitRenew true 1))

/-- Phase-1 invariant of the C1 scenario (before the renewal settles):
original token in place, the callback invoked exactly once iff a
renewal is pending, caller count stable, every caller in a phase-1
state. -/
def Coral.Inv1 (t0 n : Nat) (c : Coral.Config) : Prop :=
  c.token = t0
  ∧ c.renewCount = (if c.pending then 1 else 0)
  ∧ c.callers.length = n
  ∧ ∀ s ∈ c.callers, Coral.goodSt1 t0 c.pending s

/-- Phase-1 states stay good when the pending marker is set. -/
theorem Coral.goodSt1_mono (t0 : Nat) (p : Bool) (s : Coral.CallerSt)
    (h : Coral.goodSt1 t0 p s) : Coral.goodSt1 t0 true s := by
  rcases h with h | h | ⟨-, h⟩
  · exact Or.inl h
  · exact Or.inr (Or.inl h)
  · exact Or.inr (Or.inr ⟨rfl, h⟩)

/-- Unfolding `callerStep` when caller `i` exists. -/
theorem Coral.callerStep_eq (env : Coral.Env) (c : Coral.Config) (i : Nat)
    (s : Coral.CallerSt) (hget : c.callers[i]? = some s) :
    Coral.callerStep env c i
      = { token := c.token
          pending := (Coral.callerTrans env c.pending c.renewCount c.token s).1
          renewCount := (Coral.callerTrans env c.pending c.renewCount c.token s).2.1
          callers := c.callers.set i
            (Coral.callerTrans env c.pending c.renewCount c.token s).2.2 } := by
  unfold Coral.callerStep
  rw [hget]


/-- Caller segment equations, one per control state and relevant
environment response. -/
theorem Coral.callerTrans_start_pending (env : Coral.Env) (rc tok a : Nat) :
    Coral.callerTrans env true rc tok (Coral.CallerSt.start true a)
      = (true, rc, Coral.CallerSt.waitRenew true a) := rfl

/-- Caller segment equation: entering `fetch` with no pending renewal
issues the request with the current token. -/
theorem Coral.callerTrans_start_idle (env : Coral.Env) (rc tok a : Nat) (auto : Bool) :
    Coral.callerTrans env false rc tok (Coral.CallerSt.start auto a)
      = (false, rc, Coral.CallerSt.inflight auto a tok) := by
  cases auto <;> rfl

/-- Caller segment equation: a first-attempt token-expired response
while a renewal is pending joins the pending renewal. -/
theorem Coral.callerTrans_inflight_expired_pending (env : Coral.Env)
    (rc tok t : Nat) (hs : env.server t = Coral.Resp.tokenExpired)
    (hcb : env.hasCallback = true) :
    Coral.callerTrans env true rc tok (Coral.CallerSt.inflight true 0 t)
      = (true, rc, Coral.CallerSt.waitRenew true 1) := by
  simp only [Coral.callerTrans]
  rw [hs, hcb]
  rfl

/-- Caller segment equation: a first-attempt token-expired response
with no renewal pending makes the caller the leader — it installs the
marker and invokes the renewal callback. -/
theorem Coral.callerTrans_inflight_expired_leader (env : Coral.Env)
    (rc tok t : Nat) (hs : env.server t = Coral.Resp.tokenExpired)
    (hcb : env.hasCallback = true) :
    Coral.callerTrans env false rc tok (Coral.CallerSt.inflight true 0 t)
      = (true, rc + 1, Coral.CallerSt.waitRenew true 1) := by
  simp only [Coral.callerTrans]
  rw [hs, hcb]
  rfl

/-- Caller segment equation: an OK envelope is unwrapped and returned,
recording the token that was used. -/
theorem Coral.callerTrans_inflight_ok (env : Coral.Env) (p : Bool)
    (rc tok t r : Nat) (auto : Bool) (a : Nat)
    (hs : env.server t = Coral.Resp.ok r) :
    Coral.callerTrans env p rc tok (Coral.CallerSt.inflight auto a t)
      = (p, rc, Coral.CallerSt.done (Coral.FetchResult.ok t r)) := by
  simp only [Coral.callerTrans]
  rw [hs]

/-- Caller segment equation: a suspended caller does not move. -/
theorem Coral.callerTrans_waitRenew (env : Coral.Env) (p : Bool)
    (rc tok : Nat) (auto : Bool) (a : Nat) :
    Coral.callerTrans env p rc tok (Coral.CallerSt.waitRenew auto a)
      = (p, rc, Coral.CallerSt.waitRenew auto a) := rfl

/-- Caller segment equation: resuming after a successful renewal issues
the request with the current (renewed) token. -/
theorem Coral.callerTrans_resume_ok (env : Coral.Env) (p : Bool)
    (rc tok : Nat) (auto : Bool) (a : Nat) :
    Coral.callerTrans env p rc tok (Coral.CallerSt.resume auto a true)
      = (p, rc, Coral.CallerSt.inflight auto a tok) := rfl

/-- Caller segment equation: resuming after a failed renewal rethrows
the renewal failure. -/
theorem Coral.callerTrans_resume_fail (env : Coral.Env) (p : Bool)
    (rc tok : Nat) (auto : Bool) (a : Nat) :
    Coral.callerTrans env p rc tok (Coral.CallerSt.resume auto a false)
      = (p, rc, Coral.CallerSt.done Coral.FetchResult.errRenewFailed) := rfl

/-- Caller segment equation: a finished caller does not move. -/
theorem Coral.callerTrans_done (env : Coral.Env) (p : Bool)
    (rc tok : Nat) (r : Coral.FetchResult) :
    Coral.callerTrans env p rc tok (Coral.CallerSt.done r)
      = (p, rc, Coral.CallerSt.done r) := rfl

/-- Phase-1 invariant is preserved by any caller step, as long as the
server answers token-expired to the original token and the callback is
configured. -/
theorem Coral.inv1_callerStep (env : Coral.Env) (t0 n : Nat)
    (c : Coral.Config) (i : Nat)
    (hs : env.server t0 = Coral.Resp.tokenExpired)
    (hcb : env.hasCallback = true)
    (h : Coral.Inv1 t0 n c) : Coral.Inv1 t0 n (Coral.callerStep env c i) := by
  obtain ⟨htok, hrc, hlen, hst⟩ := h
  cases hget : c.callers[i]? with
  | none =>
      unfold Coral.callerStep
      rw [hget]
      exact ⟨htok, hrc, hlen, hst⟩
  | some s =>
      rw [Coral.callerStep_eq env c i s hget]
      have hmem : s ∈ c.callers := List.getElem?_mem hget
      have hgood := hst s hmem
      have hsetmem : ∀ (x s' : Coral.CallerSt), s' ∈ c.callers.set i x →
          Coral.goodSt1 t0 c.pending s' ∨ s' = x := by
        intro x s' hs'
        rcases List.mem_or_eq_of_mem_set hs' with h' | h'
        · exact Or.inl (hst s' h')
        · exact Or.inr h'
      rcases hgood with h1 | h1 | ⟨hp, h1 | h1⟩
      · -- s = start true 0
        subst h1
        cases hpend : c.pending with
        | true =>
            rw [hpend] at hrc hst hsetmem
            rw [Coral.callerTrans_start_pending]
            refine ⟨htok, hrc, by simp [hlen], ?_⟩
            intro s' hs'
            rcases hsetmem _ s' hs' with h' | h'
            · exact Coral.goodSt1_mono _ _ _ h'
            · subst h'; exact Or.inr (Or.inr ⟨rfl, Or.inl rfl⟩)
        | false =>
            rw [hpend] at hrc hst hsetmem
            rw [Coral.callerTrans_start_idle]
            refine ⟨htok, hrc, by simp [hlen], ?_⟩
            intro s' hs'
            rcases hsetmem _ s' hs' with h' | h'
            · exact h'
            · subst h'; rw [htok]; exact Or.inr (Or.inl rfl)
      · -- s = inflight true 0 t0
        subst h1
        cases hpend : c.pending with
        | true =>
            rw [hpend] at hrc hst hsetmem
            rw [Coral.callerTrans_inflight_expired_pending env c.renewCount
              c.token t0 hs hcb]
            refine ⟨htok, hrc, by simp [hlen], ?_⟩
            intro s' hs'
            rcases hsetmem _ s' hs' with h' | h'
            · exact Coral.goodSt1_mono _ _ _ h'
            · subst h'; exact Or.inr (Or.inr ⟨rfl, Or.inr rfl⟩)
        | false =>
            rw [hpend] at hrc hst hsetmem
            rw [Coral.callerTrans_inflight_expired_leader env c.renewCount
              c.token t0 hs hcb]
            refine ⟨htok, by simp [hrc], by simp [hlen], ?_⟩
            intro s' hs'
            rcases hsetmem _ s' hs' with h' | h'
            · exact Coral.goodSt1_mono _ _ _ h'
            · subst h'; exact Or.inr (Or.inr ⟨rfl, Or.inr rfl⟩)
      · -- s = waitRenew true 0
        subst h1
        rw [Coral.callerTrans_waitRenew]
        refine ⟨htok, hrc, by simp [hlen], ?_⟩
        intro s' hs'
        rcases hsetmem _ s' hs' with h' | h'
        · exact h'
        · subst h'; exact Or.inr (Or.inr ⟨hp, Or.inl rfl⟩)
      · -- s = waitRenew true 1
        subst h1
        rw [Coral.callerTrans_waitRenew]
        refine ⟨htok, hrc, by simp [hlen], ?_⟩
        intro s' hs'
        rcases hsetmem _ s' hs' with h' | h'
        · exact h'
        · subst h'; exact Or.inr (Or.inr ⟨hp, Or.inr rfl⟩)

/-- Decidability of `resolvesAt` (its components are decidable). -/
instance Coral.resolvesAtDecidable (env : Coral.Env) (c : Coral.Config)
    (sched : List (Option Nat)) :
    DecidablePred (Coral.resolvesAt env c sched) := fun k =>
  decidable_of_iff (sched[k]? = some none
    ∧ (Coral.runUpTo env c sched k).pending = true) Iff.rfl

/-- Phase-1 invariant holds along any schedule prefix containing no
renewal settlement, starting from the C1 initial configuration. -/
theorem Coral.inv1_upTo (env : Coral.Env) (t0 n : Nat)
    (sched : List (Option Nat))
    (hs : env.server t0 = Coral.Resp.tokenExpired)
    (hcb : env.hasCallback = true) (k : Nat)
    (hnores : ∀ j, j < k → ¬ Coral.resolvesAt env (Coral.mkInit t0 n) sched j) :
    Coral.Inv1 t0 n (Coral.runUpTo env (Coral.mkInit t0 n) sched k) := by
  induction k with
  | zero =>
      show Coral.Inv1 t0 n (Coral.mkInit t0 n)
      refine ⟨rfl, rfl, by simp [Coral.mkInit], ?_⟩
      intro s hsmem
      rw [Coral.mkInit] at hsmem
      simp only [List.mem_replicate] at hsmem
      exact Or.inl hsmem.2
  | succ k ih =>
      have ihv := ih (fun j hj => hnores j (Nat.lt_succ_of_lt hj))
      cases hget : sched[k]? with
      | none => rw [Coral.runUpTo_succ_none env _ sched k hget]; exact ihv
      | some p =>
          rw [Coral.runUpTo_succ env _ sched k p hget]
          cases p with
          | some i => exact Coral.inv1_callerStep env t0 n _ i hs hcb ihv
          | none =>
              cases hpend : (Coral.runUpTo env (Coral.mkInit t0 n) sched k).pending with
              | false =>
                  show Coral.Inv1 t0 n (Coral.renewStep env _)
                  rw [Coral.renewStep_not_pending env _ hpend]
                  exact ihv
              | true =>
                  exact absurd ⟨hget, hpend⟩ (hnores k (Nat.lt_succ_self k))

/-- A caller step never moves another caller, and never moves a
suspended caller at all. -/
theorem Coral.callerStep_waitRenew (env : Coral.Env) (c : Coral.Config)
    (m i : Nat) (auto : Bool) (a : Nat)
    (h : c.callers[i]? = some (Coral.CallerSt.waitRenew auto a)) :
    (Coral.callerStep env c m).callers[i]?
      = some (Coral.CallerSt.waitRenew auto a) := by
  cases hget : c.callers[m]? with
  | none =>
      unfold Coral.callerStep
      rw [hget]
      exact h
  | some s =>
      rw [Coral.callerStep_eq env c m s hget]
      by_cases hmi : m = i
      · subst hmi
        rw [h] at hget
        injection hget with hget
        subst hget
        rw [Coral.callerTrans_waitRenew]
        have hlt : m < c.callers.length := (List.getElem?_eq_some_iff.mp h).1
        simpa using List.getElem?_set_self (by simpa using hlt)
      · show (c.callers.set m _)[i]? = _
        rw [List.getElem?_set_ne hmi]
        exact h

/-- A suspended caller stays suspended across any schedule segment
containing no renewal settlement. -/
theorem Coral.waitRenew_persists (env : Coral.Env) (c0 : Coral.Config)
    (sched : List (Option Nat)) (i : Nat) (a b : Nat) (hab : a ≤ b)
    (hnores : ∀ j, j < b → ¬ Coral.resolvesAt env c0 sched j)
    (hwa : (Coral.runUpTo env c0 sched a).callers[i]?
      = some (Coral.CallerSt.waitRenew true 1)) :
    (Coral.runUpTo env c0 sched b).callers[i]?
      = some (Coral.CallerSt.waitRenew true 1) := by
  induction b, hab using Nat.le_induction with
  | base => exact hwa
  | succ b hab ih =>
      have hwb := ih (fun j hj => hnores j (Nat.lt_succ_of_lt hj))
      cases hget : sched[b]? with
      | none => rw [Coral.runUpTo_succ_none env _ sched b hget]; exact hwb
      | some p =>
          rw [Coral.runUpTo_succ env _ sched b p hget]
          cases p with
          | some m => exact Coral.callerStep_waitRenew env _ m i true 1 hwb
          | none =>
              cases hpend : (Coral.runUpTo env c0 sched b).pending with
              | false =>
                  show (Coral.renewStep env _).callers[i]? = _
                  rw [Coral.renewStep_not_pending env _ hpend]
                  exact hwb
              | true =>
                  exact absurd ⟨hget, hpend⟩ (hnores b (Nat.lt_succ_self b))

/-- Scheduling a caller at its first-attempt token-expired observation
leaves it suspended on the renewal (it either becomes the leader —
installing the marker and invoking the callback — or joins the pending
renewal), provided no settlement happened before. -/
theorem Coral.obs_step (env : Coral.Env) (t0 n : Nat)
    (sched : List (Option Nat)) (k i : Nat)
    (hs : env.server t0 = Coral.Resp.tokenExpired)
    (hcb : env.hasCallback = true)
    (hnores : ∀ j, j < k → ¬ Coral.resolvesAt env (Coral.mkInit t0 n) sched j)
    (hk1 : sched[k]? = some (some i))
    (hk2 : Coral.isExpObs env
      (Coral.runUpTo env (Coral.mkInit t0 n) sched k) i = true) :
    (Coral.runUpTo env (Coral.mkInit t0 n) sched (k + 1)).callers[i]?
      = some (Coral.CallerSt.waitRenew true 1) := by
  obtain ⟨htok, hrc, hlen, hst⟩ := Coral.inv1_upTo env t0 n sched hs hcb k hnores
  unfold Coral.isExpObs at hk2
  split at hk2
  · rename_i auto a t heq
    rw [Bool.and_eq_true] at hk2
    have ha : a = 0 := by simpa using hk2.1
    subst ha
    have hgood := hst _ (List.getElem?_mem heq)
    rcases hgood with h1 | h1 | ⟨-, h1 | h1⟩
    · exact absurd h1 (by simp)
    · have hauto : auto = true := by injection h1
      have ht : t = t0 := by injection h1
      subst hauto
      rw [ht] at heq
      have hstep : Coral.runUpTo env (Coral.mkInit t0 n) sched (k + 1)
          = Coral.callerStep env
              (Coral.runUpTo env (Coral.mkInit t0 n) sched k) i := by
        rw [Coral.runUpTo_succ env _ sched k (some i) hk1]
        rfl
      rw [hstep, Coral.callerStep_eq env _ i _ heq]
      have hlt : i < (Coral.runUpTo env (Coral.mkInit t0 n) sched k).callers.length :=
        (List.getElem?_eq_some_iff.mp heq).1
      cases hpend : (Coral.runUpTo env (Coral.mkInit t0 n) sched k).pending with
      | true =>
          rw [Coral.callerTrans_inflight_expired_pending env _ _ t0 hs hcb]
          exact List.getElem?_set_self hlt
      | false =>
          rw [Coral.callerTrans_inflight_expired_leader env _ _ t0 hs hcb]
          exact List.getElem?_set_self hlt
    · exact absurd h1 (by simp)
    · exact absurd h1 (by simp)
  · exact Bool.noConfusion hk2

/-- Phase-2 invariant of the C1 scenario (after the renewal settled
with the refreshed token `t1`): refreshed token in place, no pending
renewal, the callback was invoked exactly once, and every caller is
resuming, retrying with `t1`, or done with the result obtained using
`t1`. -/
def Coral.Inv2 (t1 r : Nat) (c : Coral.Config) : Prop :=
  c.token = t1
  ∧ c.pending = false
  ∧ c.renewCount = 1
  ∧ ∀ s ∈ c.callers, s = Coral.CallerSt.resume true 1 true
      ∨ s = Coral.CallerSt.inflight true 1 t1
      ∨ s = Coral.CallerSt.done (Coral.FetchResult.ok t1 r)

/-- Phase-2 invariant is preserved by any caller step, as long as the
server accepts the refreshed token. -/
theorem Coral.inv2_callerStep (env : Coral.Env) (t1 r : Nat)
    (c : Coral.Config) (i : Nat)
    (hs1 : env.server t1 = Coral.Resp.ok r)
    (h : Coral.Inv2 t1 r c) : Coral.Inv2 t1 r (Coral.callerStep env c i) := by
  obtain ⟨htok, hpend, hrc, hst⟩ := h
  cases hget : c.callers[i]? with
  | none =>
      unfold Coral.callerStep
      rw [hget]
      exact ⟨htok, hpend, hrc, hst⟩
  | some s =>
      rw [Coral.callerStep_eq env c i s hget]
      have hsetmem : ∀ (x s' : Coral.CallerSt), s' ∈ c.callers.set i x →
          (s' = Coral.CallerSt.resume true 1 true
            ∨ s' = Coral.CallerSt.inflight true 1 t1
            ∨ s' = Coral.CallerSt.done (Coral.FetchResult.ok t1 r)) ∨ s' = x := by
        intro x s' hs'
        rcases List.mem_or_eq_of_mem_set hs' with h' | h'
        · exact Or.inl (hst s' h')
        · exact Or.inr h'
      have hgood := hst s (List.getElem?_mem hget)
      rcases hgood with h1 | h1 | h1
      · subst h1
        rw [Coral.callerTrans_resume_ok]
        refine ⟨htok, hpend, hrc, ?_⟩
        intro s' hs'
        rcases hsetmem _ s' hs' with h' | h'
        · exact h'
        · subst h'; rw [htok]; exact Or.inr (Or.inl rfl)
      · subst h1
        rw [Coral.callerTrans_inflight_ok env c.pending c.renewCount c.token
          t1 r true 1 hs1]
        refine ⟨htok, hpend, hrc, ?_⟩
        intro s' hs'
        rcases hsetmem _ s' hs' with h' | h'
        · exact h'
        · subst h'; exact Or.inr (Or.inr rfl)
      · subst h1
        rw [Coral.callerTrans_done]
        refine ⟨htok, hpend, hrc, ?_⟩
        intro s' hs'
        rcases hsetmem _ s' hs' with h' | h'
        · exact h'
        · subst h'; exact Or.inr (Or.inr rfl)

/-- Phase-2 invariant is preserved by any scheduler step. -/
theorem Coral.inv2_step (env : Coral.Env) (t1 r : Nat) (c : Coral.Config)
    (p : Option Nat) (hs1 : env.server t1 = Coral.Resp.ok r)
    (h : Coral.Inv2 t1 r c) : Coral.Inv2 t1 r (Coral.step env c p) := by
  cases p with
  | some i => exact Coral.inv2_callerStep env t1 r c i hs1 h
  | none =>
      show Coral.Inv2 t1 r (Coral.renewStep env c)
      rw [Coral.renewStep_not_pending env c h.2.1]
      exact h

/-- Phase-2 invariant is preserved by any schedule suffix. -/
theorem Coral.inv2_run (env : Coral.Env) (t1 r : Nat)
    (hs1 : env.server t1 = Coral.Resp.ok r) (l : List (Option Nat)) :
    ∀ c, Coral.Inv2 t1 r c → Coral.Inv2 t1 r (Coral.run env c l) := by
  induction l with
  | nil => intro c h; exact h
  | cons p l ih =>
      intro c h
      exact ih _ (Coral.inv2_step env t1 r c p hs1 h)

/-- C1: single-flight renewal. Start a `CoralApi` client with token
`t0`, no pending renewal, and `n` concurrent callers of `fetch` (all
with the default internal arguments), in an environment where the
server reports token-expired for `t0` and succeeds for the renewed
token `t1`, and where the configured renewal callback yields `t1`.
For every interleaving in which all `n` callers observe their
token-expired envelope before any renewal settlement (i.e. they all
observe it in the window opened while no renewal was pending), and in
which every caller runs to completion: the injected `onTokenExpired`
callback is invoked exactly once in the whole execution
(`renewCount = 1`), and every caller completes its retried request
successfully using the same refreshed token `t1` — no caller errors
and no caller uses any other token, so neither a renewal storm nor a
mixed outcome is possible. -/
theorem Coral.single_flight_renewal (env : Coral.Env) (t0 t1 r n : Nat)
    (sched : List (Option Nat))
    (hserv0 : env.server t0 = Coral.Resp.tokenExpired)
    (hserv1 : env.server t1 = Coral.Resp.ok r)
    (hrenew : env.renewResult 0 = Coral.RenewOutcome.success (some t1))
    (hcb : env.hasCallback = true)
    (hn : 0 < n)
    (hobs : ∀ i, i < n → ∃ k, sched[k]? = some (some i)
      ∧ Coral.isExpObs env (Coral.runUpTo env (Coral.mkInit t0 n) sched k) i = true
      ∧ ∀ kr, kr < sched.length →
          Coral.resolvesAt env (Coral.mkInit t0 n) sched kr → k < kr)
    (hdone : (Coral.run env (Coral.mkInit t0 n) sched).callers.all
        Coral.CallerSt.isDone = true) :
    (Coral.run env (Coral.mkInit t0 n) sched).renewCount = 1
    ∧ ∀ s ∈ (Coral.run env (Coral.mkInit t0 n) sched).callers,
        s = Coral.CallerSt.done (Coral.FetchResult.ok t1 r) := by
  by_cases hex : ∃ k, Coral.resolvesAt env (Coral.mkInit t0 n) sched k
  case neg =>
    exfalso
    have hnores := not_exists.mp hex
    have hinv := Coral.inv1_upTo env t0 n sched hserv0 hcb sched.length
      (fun j _ => hnores j)
    have hfin : Coral.runUpTo env (Coral.mkInit t0 n) sched sched.length
        = Coral.run env (Coral.mkInit t0 n) sched := by
      unfold Coral.runUpTo
      rw [List.take_length]
    rw [hfin] at hinv
    obtain ⟨-, -, hlen, hst⟩ := hinv
    have hpos : 0 < (Coral.run env (Coral.mkInit t0 n) sched).callers.length := by
      rw [hlen]; exact hn
    obtain ⟨s, hsmem⟩ := List.exists_mem_of_length_pos hpos
    have hdones := List.all_eq_true.mp hdone s hsmem
    rcases hst s hsmem with h | h | ⟨-, h | h⟩ <;> subst h <;>
      simp [Coral.CallerSt.isDone] at hdones
  case pos =>
    obtain ⟨kstar, hres, hmin⟩ :
        ∃ k, Coral.resolvesAt env (Coral.mkInit t0 n) sched k
          ∧ ∀ j, j < k → ¬ Coral.resolvesAt env (Coral.mkInit t0 n) sched j :=
      ⟨Nat.find hex, Nat.find_spec hex, fun j hj => Nat.find_min hex hj⟩
    obtain ⟨hresg, hresp⟩ := hres
    have hklen : kstar < sched.length := (List.getElem?_eq_some_iff.mp hresg).1
    obtain ⟨htok1, hrc1, hlen1, -⟩ :=
      Coral.inv1_upTo env t0 n sched hserv0 hcb kstar hmin
    rw [hresp] at hrc1
    have hrc1' : (Coral.runUpTo env (Coral.mkInit t0 n) sched kstar).renewCount
        = 1 := by simpa using hrc1
    have hwait : ∀ i, i < n →
        (Coral.runUpTo env (Coral.mkInit t0 n) sched kstar).callers[i]?
          = some (Coral.CallerSt.waitRenew true 1) := by
      intro i hi
      obtain ⟨k, hk1, hk2, hk3⟩ := hobs i hi
      have hklt : k < kstar := hk3 kstar hklen ⟨hresg, hresp⟩
      have hw1 := Coral.obs_step env t0 n sched k i hserv0 hcb
        (fun j hj => hmin j (Nat.lt_trans hj hklt)) hk1 hk2
      exact Coral.waitRenew_persists env (Coral.mkInit t0 n) sched i
        (k + 1) kstar hklt (fun j hj => hmin j hj) hw1
    have hstepeq : Coral.runUpTo env (Coral.mkInit t0 n) sched (kstar + 1)
        = Coral.renewStep env
            (Coral.runUpTo env (Coral.mkInit t0 n) sched kstar) := by
      rw [Coral.runUpTo_succ env _ sched kstar none hresg]
      rfl
    have hrenew0 : env.renewResult
        ((Coral.runUpTo env (Coral.mkInit t0 n) sched kstar).renewCount - 1)
        = Coral.RenewOutcome.success (some t1) := by
      rw [hrc1']
      exact hrenew
    have hc' : Coral.runUpTo env (Coral.mkInit t0 n) sched (kstar + 1)
        = { token := t1
            pending := false
            renewCount :=
              (Coral.runUpTo env (Coral.mkInit t0 n) sched kstar).renewCount
            callers :=
              (Coral.runUpTo env (Coral.mkInit t0 n) sched kstar).callers.map
                (fun s => Coral.resolveWaiter s true) } := by
      rw [hstepeq]
      unfold Coral.renewStep
      rw [hresp, hrenew0]
      rfl
    have hinv2 : Coral.Inv2 t1 r
        (Coral.runUpTo env (Coral.mkInit t0 n) sched (kstar + 1)) := by
      rw [hc']
      refine ⟨rfl, rfl, hrc1', ?_⟩
      intro s hsmem
      rw [List.mem_map] at hsmem
      obtain ⟨s0, hs0mem, hs0⟩ := hsmem
      obtain ⟨j, hj⟩ := List.mem_iff_getElem?.mp hs0mem
      have hjlt : j < n := by
        have hjl := (List.getElem?_eq_some_iff.mp hj).1
        rwa [hlen1] at hjl
      have hw := hwait j hjlt
      rw [hj] at hw
      injection hw with hw
      subst hw
      rw [← hs0]
      exact Or.inl rfl
    have hsplit : Coral.run env (Coral.mkInit t0 n) sched
        = Coral.run env (Coral.runUpTo env (Coral.mkInit t0 n) sched (kstar + 1))
            (sched.drop (kstar + 1)) := by
      unfold Coral.runUpTo Coral.run
      conv_lhs => rw [← List.take_append_drop (kstar + 1) sched]
      rw [List.foldl_append]
    have hfin2 : Coral.Inv2 t1 r (Coral.run env (Coral.mkInit t0 n) sched) := by
      rw [hsplit]
      exact Coral.inv2_run env t1 r hserv1 _ _ hinv2
    obtain ⟨-, -, hrcf, hstf⟩ := hfin2
    refine ⟨hrcf, ?_⟩
    intro s hsmem
    have hdones := List.all_eq_true.mp hdone s hsmem
    rcases hstf s hsmem with h | h | h
    · subst h; simp [Coral.CallerSt.isDone] at hdones
    · subst h; simp [Coral.CallerSt.isDone] at hdones
    · exact h

/-- Environment for the C1 witness: token 0 is expired, token 1 works,
the renewal callback yields token 1. -/
def Coral.envSfW : Coral.Env :=
  ⟨fun t => if t = 0 then Coral.Resp.tokenExpired else Coral.Resp.ok 42,
   fun _ => Coral.RenewOutcome.success (some 1), true⟩

/-- Schedule for the C1 witness: both callers issue their requests,
both observe token-expired (the first becomes the leader, the second
joins), the renewal settles, then both retry and complete. -/
def Coral.schedSfW : List (Option Nat) :=
  [some 0, some 1, some 0, some 1, none, some 0, some 0, some 1, some 1]

/-- C1 witness: the hypotheses hold for two concrete concurrent callers
under a concrete interleaving, and the theorem applies. -/
theorem Coral.single_flight_renewal_witness :
    (Coral.envSfW.server 0 = Coral.Resp.tokenExpired
      ∧ Coral.envSfW.server 1 = Coral.Resp.ok 42
      ∧ Coral.envSfW.renewResult 0 = Coral.RenewOutcome.success (some 1)
      ∧ Coral.envSfW.hasCallback = true
      ∧ 0 < 2
      ∧ (∀ i, i < 2 → ∃ k, Coral.schedSfW[k]? = some (some i)
          ∧ Coral.isExpObs Coral.envSfW
              (Coral.runUpTo Coral.envSfW (Coral.mkInit 0 2) Coral.schedSfW k) i
            = true
          ∧ ∀ kr, kr < Coral.schedSfW.length →
              Coral.resolvesAt Coral.envSfW (Coral.mkInit 0 2) Coral.schedSfW kr
              → k < kr)
      ∧ (Coral.run Coral.envSfW (Coral.mkInit 0 2) Coral.schedSfW).callers.all
          Coral.CallerSt.isDone = true)
    ∧ ((Coral.run Coral.envSfW (Coral.mkInit 0 2) Coral.schedSfW).renewCount = 1
      ∧ ∀ s ∈ (Coral.run Coral.envSfW (Coral.mkInit 0 2) Coral.schedSfW).callers,
          s = Coral.CallerSt.done (Coral.FetchResult.ok 1 42)) := by
  have hobs : ∀ i, i < 2 → ∃ k, Coral.schedSfW[k]? = some (some i)
      ∧ Coral.isExpObs Coral.envSfW
          (Coral.runUpTo Coral.envSfW (Coral.mkInit 0 2) Coral.schedSfW k) i
        = true
      ∧ ∀ kr, kr < Coral.schedSfW.length →
          Coral.resolvesAt Coral.envSfW (Coral.mkInit 0 2) Coral.schedSfW kr
          → k < kr := by
    intro i hi
    interval_cases i
    · exact ⟨2, by decide, by decide, by decide⟩
    · exact ⟨3, by decide, by decide, by decide⟩
  exact ⟨⟨by decide, by decide, rfl, rfl, by decide, hobs, by decide⟩,
    Coral.single_flight_renewal Coral.envSfW 0 1 42 2 Coral.schedSfW
      (by decide) (by decide) rfl rfl (by decide) hobs (by decide)⟩
